import Mathlib

/-!
Shallow embedding of `src/bsd/copy.py` (`copytree`) as a pure function over
an oracle filesystem environment.  The function returns the trace of observable
events (callback invocations, filesystem writes, AttributeStore operations) and
the final outcome (normal return, raised `shutil.Error`, uncaught exception).
-/

namespace PyBsdCopy

/-- Model of a Python `OSError`/`IOError` instance: its `errno` and a tag that
distinguishes different exception objects with the same errno. -/
structure OSErr where
  errno : Nat
  tag : Nat
deriving DecidableEq, Repr

/-- The `errno.EEXIST` constant (17 on FreeBSD/Linux). -/
def eEEXIST : Nat := 17

/-- Python values that can appear in `copytree`'s error plumbing: the
arguments fed to `call_error_cb` and the elements of the `errors` list.
`shutilError l` models a `shutil.Error` whose `args[0]` is `l`. -/
inductive PyVal where
  | pstr (s : String)
  | oserr (e : OSErr)
  | shutilError (lst : List PyVal)
  | ptuple (elems : List PyVal)
  | plist (elems : List PyVal)

mutual
/-- Boolean equality on `PyVal` (the nested list forces a manual instance). -/
def pvBeq : PyVal → PyVal → Bool
  | .pstr a, .pstr b => a == b
  | .oserr a, .oserr b => a == b
  | .shutilError a, .shutilError b => pvBeqList a b
  | .ptuple a, .ptuple b => pvBeqList a b
  | .plist a, .plist b => pvBeqList a b
  | _, _ => false

/-- Elementwise `pvBeq` on lists. -/
def pvBeqList : List PyVal → List PyVal → Bool
  | [], [] => true
  | a :: as, b :: bs => pvBeq a b && pvBeqList as bs
  | _, _ => false
end

mutual
theorem pvBeq_iff : ∀ a b : PyVal, pvBeq a b = true ↔ a = b
  | .pstr a, .pstr b => by simp [pvBeq]
  | .pstr _, .oserr _ => by simp [pvBeq]
  | .pstr _, .shutilError _ => by simp [pvBeq]
  | .pstr _, .ptuple _ => by simp [pvBeq]
  | .pstr _, .plist _ => by simp [pvBeq]
  | .oserr _, .pstr _ => by simp [pvBeq]
  | .oserr a, .oserr b => by
    simp only [pvBeq, beq_iff_eq, PyVal.oserr.injEq]
  | .oserr _, .shutilError _ => by simp [pvBeq]
  | .oserr _, .ptuple _ => by simp [pvBeq]
  | .oserr _, .plist _ => by simp [pvBeq]
  | .shutilError _, .pstr _ => by simp [pvBeq]
  | .shutilError _, .oserr _ => by simp [pvBeq]
  | .shutilError a, .shutilError b => by
    simpa [pvBeq] using pvBeqList_iff a b
  | .shutilError _, .ptuple _ => by simp [pvBeq]
  | .shutilError _, .plist _ => by simp [pvBeq]
  | .ptuple _, .pstr _ => by simp [pvBeq]
  | .ptuple _, .oserr _ => by simp [pvBeq]
  | .ptuple _, .shutilError _ => by simp [pvBeq]
  | .ptuple a, .ptuple b => by simpa [pvBeq] using pvBeqList_iff a b
  | .ptuple _, .plist _ => by simp [pvBeq]
  | .plist _, .pstr _ => by simp [pvBeq]
  | .plist _, .oserr _ => by simp [pvBeq]
  | .plist _, .shutilError _ => by simp [pvBeq]
  | .plist _, .ptuple _ => by simp [pvBeq]
  | .plist a, .plist b => by simpa [pvBeq] using pvBeqList_iff a b

theorem pvBeqList_iff : ∀ a b : List PyVal, pvBeqList a b = true ↔ a = b
  | [], [] => by simp [pvBeqList]
  | [], _ :: _ => by simp [pvBeqList]
  | _ :: _, [] => by simp [pvBeqList]
  | a :: as, b :: bs => by
    simp only [pvBeqList, Bool.and_eq_true, List.cons.injEq]
    exact and_congr (pvBeq_iff a b) (pvBeqList_iff as bs)
end

instance : DecidableEq PyVal := fun a b =>
  decidable_of_iff _ (pvBeq_iff a b)

/-- The `isinstance(a, (tuple, list, shutil.Error))` test from line 83 of
`copy.py`. -/
def isCont : PyVal → Bool
  | .ptuple _ => true
  | .plist _ => true
  | .shutilError _ => true
  | _ => false

mutual
/-- One iteration of the `for arg in args` loop of `call_error_cb`
(copy.py lines 77-86): a `shutil.Error` recurses into `args[0]`; a tuple or
list of length 3 with no container element is delivered to `error_cb`;
any other tuple/list recurses; every other value is ignored.
Returns the list of `error_cb` invocations (each an argument list). -/
def cecArg : PyVal → List (List PyVal)
  | .shutilError lst => cecArgs lst
  | .ptuple elems =>
    if elems.length == 3 && !(elems.any isCont) then [elems] else cecArgs elems
  | .plist elems =>
    if elems.length == 3 && !(elems.any isCont) then [elems] else cecArgs elems
  | _ => []

/-- `call_error_cb(*args)`: processes each argument in order. -/
def cecArgs : List PyVal → List (List PyVal)
  | [] => []
  | a :: rest => cecArg a ++ cecArgs rest
end

/-- Observable events of one `copytree` run, in program order. -/
inductive Ev where
  | progress (s d : String)
  | copy2 (s d : String)
  | symlinkMade (target : String) (d : String)
  | makedirsOk (d : String)
  | makedirsOSError (d : String) (errno : Nat)
  | copystatOk (s d : String)
  | errorCb (args : List PyVal)
  | xattrErrCb (p : String) (ns : Option String) (attr : Option String) (e : OSErr)
  | eaNamespacesCall
  | eaListCall (p : String) (ns : Nat)
  | eaGetCall (p : String) (ns : Nat) (name : String)
  | eaSetCall (p : String) (ns : Nat) (name : String)
deriving DecidableEq

/-- How one `copytree` invocation terminates. -/
inductive Outcome where
  | ok
  | shutilErr (errs : List PyVal)
  | unboundLocalError
  | fuelOut
deriving DecidableEq

/-- Result of the `try` block for one entry: normal completion, a caught
`IOError`/`os.error` (handler at line 175), a caught `shutil.Error`
(handler at line 183), or an exception neither handler catches. -/
inductive EntryRes where
  | ok
  | osE (e : OSErr)
  | shuE (lst : List PyVal)
  | halt (out : Outcome)
deriving DecidableEq

/-- The dynamic type of the `xattr` argument.  `copy.py` line 127 tests
`xattr is True` (object identity with the `True` singleton) and line 130
tests `type(xattr) in (str, list)` (exact type). -/
inductive PyXAttr where
  | pyTrue
  | pyFalse
  | pyNone
  | pyStr (s : String)
  | pyStrList (l : List String)
  | pyInt (n : Int)
deriving DecidableEq, Repr

/-- The keyword arguments of `copytree` with their Python defaults.
`progress_callback` and `error_cb` are modelled by their presence (their
invocations are recorded as trace events).  `xattr _filter` and
`xattr_error_callback` return a `Bool` that is `false` exactly when the
Python callable returns the exact object `False` (the code tests
`... is False`). -/
structure Opts where
  symlinks : Bool := false
  progress_callback : Bool := false
  xattr : PyXAttr := .pyFalse
  xattrFilter : Option (String → String → String → Bool) := none
  xattr_error_callback : Option (String → String → Option String → OSErr → Bool) := none
  exclude : Option (List String) := none
  error_cb : Bool := false

/-- Oracle environment: a snapshot of the filesystem predicates consulted by
`copytree` plus the result of each fallible operation (`none`/`Except.ok`
means success, `some e`/`Except.error e` means the operation raises `e`). -/
structure Env where
  islink : String → Bool
  isfile : String → Bool
  isdir : String → Bool
  listdir : String → List String
  readlink : String → String
  symlinkRes : String → String → Option OSErr
  makedirsRes : String → Option OSErr
  copy2Res : String → String → Option OSErr
  copystatRes : String → String → Option OSErr
  nsAll : List (String × Nat)
  nsOfStr : String → List (String × Nat)
  nsOfList : List String → List (String × Nat)
  eaListRes : String → Nat → Bool → Except OSErr (List String)
  eaGetRes : String → Nat → String → Bool → Except OSErr String
  eaSetRes : String → Nat → String → Bool → Option OSErr

/-- `os.path.join(p, n)` for the simple relative-name case used here. -/
def pjoin (p n : String) : String := p ++ "/" ++ n

/-- The comprehension filter at line 105:
`name for name in names if not exclude or name not in exclude`.
`not exclude` is Python truthiness: `None` and the empty list disable the
filter entirely. -/
def excludeKeep (exclude : Option (List String)) (name : String) : Bool :=
  match exclude with
  | none => true
  | some l => if l.isEmpty then true else !(l.contains name)

/-- Lines 127-133: resolve the namespace dictionary to attempt, or `none`
when `ea_namespaces = None`. -/
def resolveNs (env : Env) : PyXAttr → Option (List (String × Nat))
  | .pyTrue => some env.nsAll
  | .pyStr s => some (env.nsOfStr s)
  | .pyStrList l => some (env.nsOfList l)
  | _ => none

/-- Lines 149-172, the `for ea in ea_names` loop for one namespace.
Returns the events and `some e` when a `raise e` escapes the loop. -/
def attrLoop (env : Env) (o : Opts) (srcname dstname : String)
    (nsName : String) (nsId : Nat) : List String → List Ev × Option OSErr
  | [] => ([], none)
  | ea :: rest =>
    let skip : Bool :=
      match o.xattrFilter with
      | some f => f srcname nsName ea == false
      | none => false
    if skip then
      attrLoop env o srcname dstname nsName nsId rest
    else
      match env.eaGetRes srcname nsId ea o.symlinks with
      | .error e =>
        match o.xattr_error_callback with
        | some cb =>
          let evCb := Ev.xattrErrCb srcname (some nsName) none e
          if cb srcname nsName none e == false then
            ([Ev.eaGetCall srcname nsId ea, evCb], some e)
          else
            let res := attrLoop env o srcname dstname nsName nsId rest
            (Ev.eaGetCall srcname nsId ea :: evCb :: res.1, res.2)
        | none => ([Ev.eaGetCall srcname nsId ea], some e)
      | .ok _ =>
        match env.eaSetRes dstname nsId ea o.symlinks with
        | some e =>
          match o.xattr_error_callback with
          | some cb =>
            let evCb := Ev.xattrErrCb srcname (some nsName) none e
            if cb srcname nsName none e == false then
              ([Ev.eaGetCall srcname nsId ea, Ev.eaSetCall dstname nsId ea, evCb], some e)
            else
              let res := attrLoop env o srcname dstname nsName nsId rest
              (Ev.eaGetCall srcname nsId ea :: Ev.eaSetCall dstname nsId ea :: evCb :: res.1,
               res.2)
          | none => ([Ev.eaGetCall srcname nsId ea, Ev.eaSetCall dstname nsId ea], some e)
        | none =>
          let res := attrLoop env o srcname dstname nsName nsId rest
          (Ev.eaGetCall srcname nsId ea :: Ev.eaSetCall dstname nsId ea :: res.1, res.2)

/-- Lines 136-172, the `for ns_name, ns_id in ea_namespaces.items()` loop. -/
def nsLoop (env : Env) (o : Opts) (srcname dstname : String) :
    List (String × Nat) → List Ev × Option OSErr
  | [] => ([], none)
  | (nsName, nsId) :: rest =>
    match env.eaListRes srcname nsId o.symlinks with
    | .error e =>
      match o.xattr_error_callback with
      | some cb =>
        let evCb := Ev.xattrErrCb srcname (some nsName) none e
        if cb srcname nsName none e == false then
          ([Ev.eaListCall srcname nsId, evCb], some e)
        else
          let res := nsLoop env o srcname dstname rest
          (Ev.eaListCall srcname nsId :: evCb :: res.1, res.2)
      | none => ([Ev.eaListCall srcname nsId], some e)
    | .ok eaNames =>
      let res1 := attrLoop env o srcname dstname nsName nsId eaNames
      match res1.2 with
      | some e => (Ev.eaListCall srcname nsId :: res1.1, some e)
      | none =>
        let res2 := nsLoop env o srcname dstname rest
        (Ev.eaListCall srcname nsId :: res1.1 ++ res2.1, res2.2)

/-- Lines 126-172: the attribute-copy phase for one content-copied file. -/
def copyEAs (env : Env) (o : Opts) (srcname dstname : String) :
    List Ev × Option OSErr :=
  match resolveNs env o.xattr with
  | none => ([], none)
  | some nss =>
    let res := nsLoop env o srcname dstname nss
    (Ev.eaNamespacesCall :: res.1, res.2)

/-- Lines 116-172: the body of the per-entry `try` block.  `rec` is the
recursive `copytree(srcname, dstname, symlinks)` call of line 120. -/
def entryBody (rec : String → String → List Ev × Outcome) (env : Env) (o : Opts)
    (srcname dstname : String) : List Ev × EntryRes :=
  if o.symlinks && env.islink srcname then
    let linkto := env.readlink srcname
    match env.symlinkRes linkto dstname with
    | some e => ([], .osE e)
    | none => ([Ev.symlinkMade linkto dstname], .ok)
  else if env.isdir srcname then
    let res := rec srcname dstname
    match res.2 with
    | .ok => (res.1, .ok)
    | .shutilErr lst => (res.1, .shuE lst)
    | out => (res.1, .halt out)
  else
    let progEv : List Ev :=
      if o.progress_callback then [Ev.progress srcname dstname] else []
    match env.copy2Res srcname dstname with
    | some e => (progEv, .osE e)
    | none =>
      let res := copyEAs env o srcname dstname
      (progEv ++ Ev.copy2 srcname dstname :: res.1,
       match res.2 with
       | some e => .osE e
       | none => .ok)

/-- Lines 107-187: the `for name in names` loop, with the two `except`
handlers.  Accumulates the `errors` list; `Sum.inr` is an exception that
escapes the whole invocation. -/
def nameLoop (rec : String → String → List Ev × Outcome) (env : Env) (o : Opts)
    (directory : Bool) (src dst : String) :
    List String → List PyVal → List Ev × (List PyVal ⊕ Outcome)
  | [], errs => ([], Sum.inl errs)
  | name :: rest, errs =>
    let srcname := if directory then pjoin src name else name
    let dstname := if directory then pjoin dst name else dst
    let res := entryBody rec env o srcname dstname
    match res.2 with
    | .ok =>
      let res2 := nameLoop rec env o directory src dst rest errs
      (res.1 ++ res2.1, res2.2)
    | .osE e =>
      if o.error_cb then
        let evs := (cecArgs [.pstr src, .pstr dst, .oserr e]).map Ev.errorCb
        let res2 := nameLoop rec env o directory src dst rest errs
        (res.1 ++ evs ++ res2.1, res2.2)
      else
        let res2 := nameLoop rec env o directory src dst rest
          (errs ++ [.ptuple [.pstr srcname, .pstr dstname, .oserr e]])
        (res.1 ++ res2.1, res2.2)
    | .shuE lst =>
      if o.error_cb then
        let evs := (cecArgs [.pstr src, .pstr dst, .plist lst]).map Ev.errorCb
        let res2 := nameLoop rec env o directory src dst rest errs
        (res.1 ++ evs ++ res2.1, res2.2)
      else
        let res2 := nameLoop rec env o directory src dst rest (errs ++ lst)
        (res.1 ++ res2.1, res2.2)
    | .halt out => (res.1, Sum.inr out)

/-- The options of the recursive call at line 120:
`copytree(srcname, dstname, symlinks)` — every keyword argument other than
`symlinks` is left at its default. -/
def subOpts (o : Opts) : Opts := { symlinks := o.symlinks }

/-- Lines 103-197 of `copytree`, shared by every classification branch:
the exclusion filter, the entry loop, the final `copystat` and the
`raise shutil.Error(errors)` check.  `names0`, `directory` and the
already-produced events `t0` come from the classification. -/
def copytreeRest (rec : String → String → List Ev × Outcome) (env : Env)
    (o : Opts) (src dst : String) (names0 : List String) (directory : Bool)
    (t0 : List Ev) : List Ev × Outcome :=
  let names := names0.filter (excludeKeep o.exclude)
  let res := nameLoop rec env o directory src dst names []
  match res.2 with
  | Sum.inr out => (t0 ++ res.1, out)
  | Sum.inl errs =>
    match env.copystatRes src dst with
    | none =>
      let t2 := t0 ++ res.1 ++ [Ev.copystatOk src dst]
      if !errs.isEmpty && !o.error_cb then (t2, .shutilErr errs)
      else (t2, .ok)
    | some why =>
      if o.error_cb then
        let evs := (cecArgs [.pstr src, .pstr dst, .oserr why]).map Ev.errorCb
        (t0 ++ res.1 ++ evs, .ok)
      else
        -- line 194: errors.extend((src, dst, why)) splices three elements
        let errs2 := errs ++ [.pstr src, .pstr dst, .oserr why]
        if !errs2.isEmpty then (t0 ++ res.1, .shutilErr errs2)
        else (t0 ++ res.1, .ok)

/-- `copytree(src, dst, **o)`, copy.py lines 42-197, with a fuel bound on the
recursion depth.  Classification (lines 88-101) picks the entry set; a `src`
matching no branch leaves `names` unassigned, so line 105 raises
`UnboundLocalError`. -/
def copytree (env : Env) : Nat → String → String → Opts → List Ev × Outcome
  | 0, _, _, _ => ([], .fuelOut)
  | fuel + 1, src, dst, o =>
    let recCall := fun s d => copytree env fuel s d (subOpts o)
    if o.symlinks && env.islink src then
      copytreeRest recCall env o src dst [src] false []
    else if env.isfile src then
      copytreeRest recCall env o src dst [src] false []
    else if env.isdir src then
      copytreeRest recCall env o src dst (env.listdir src) true
        (match env.makedirsRes dst with
         | none => [Ev.makedirsOk dst]
         | some err =>
           -- the handler at lines 99-101 has no re-raise branch: every
           -- OSError, EEXIST or not, is swallowed
           [Ev.makedirsOSError dst err.errno])
    else ([], .unboundLocalError)

/-! Concrete environments used to evaluate `copytree` at specific inputs. -/

/-- A quiescent environment: nothing exists, every operation succeeds. -/
def baseEnv : Env where
  islink := fun _ => false
  isfile := fun _ => false
  isdir := fun _ => false
  listdir := fun _ => []
  readlink := fun _ => ""
  symlinkRes := fun _ _ => none
  makedirsRes := fun _ => none
  copy2Res := fun _ _ => none
  copystatRes := fun _ _ => none
  nsAll := []
  nsOfStr := fun _ => []
  nsOfList := fun _ => []
  eaListRes := fun _ _ _ => .ok []
  eaGetRes := fun _ _ _ _ => .ok ""
  eaSetRes := fun _ _ _ _ => none

/-- Tree for the recursion-options question: `s` is a directory holding the
regular file `g` and the subdirectory `d`; `s/d` holds the regular file `f`.
Every operation succeeds. -/
def env1 : Env := { baseEnv with
  isdir := fun p => p == "s" || p == "s/d"
  isfile := fun p => p == "s/g" || p == "s/d/f"
  listdir := fun p => if p == "s" then ["g", "d"] else if p == "s/d" then ["f"] else [] }

/-- A single regular file `s` whose content copy fails with `EACCES`. -/
def env2 : Env := { baseEnv with
  isfile := fun p => p == "s"
  copy2Res := fun s _ => if s == "s" then some ⟨13, 0⟩ else none }

/-- A directory `s` with one regular file child `f`; creating the destination
directory fails with `EACCES` (13), not `EEXIST`. -/
def env3 : Env := { baseEnv with
  isdir := fun p => p == "s"
  isfile := fun p => p == "s/f"
  listdir := fun p => if p == "s" then ["f"] else []
  makedirsRes := fun _ => some ⟨13, 7⟩ }

/-- `s` is a symlink whose target `tgt` is a regular file (so `isfile s` holds
through the link, `isdir s` does not). -/
def env4 : Env := { baseEnv with
  islink := fun p => p == "s"
  isfile := fun p => p == "s"
  readlink := fun _ => "tgt" }

/-- A regular file `s` carrying extended attributes: one namespace
`("user", 1)` with a single attribute `a`; reading the attribute value fails. -/
def env5 : Env := { baseEnv with
  isfile := fun p => p == "s"
  nsAll := [("user", 1)]
  eaListRes := fun _ _ _ => .ok ["a"]
  eaGetRes := fun _ _ _ _ => .error ⟨13, 3⟩ }

/-- A regular file `s` whose content copy succeeds but whose final
`copystat` fails. -/
def env6 : Env := { baseEnv with
  isfile := fun p => p == "s"
  copystatRes := fun s _ => if s == "s" then some ⟨1, 9⟩ else none }

/-- A directory `s` with three regular file children `a`, `b`, `c`; copying
`b` fails with `EACCES`, everything else succeeds. -/
def env7 : Env := { baseEnv with
  isdir := fun p => p == "s"
  isfile := fun p => p == "s/a" || p == "s/b" || p == "s/c"
  listdir := fun p => if p == "s" then ["a", "b", "c"] else []
  copy2Res := fun s _ => if s == "s/b" then some ⟨13, 4⟩ else none }

/-- A chain `s/a/b/f` of directories with one regular file at depth three;
only the content copy of `f` fails. -/
def env8 : Env := { baseEnv with
  isdir := fun p => p == "s" || p == "s/a" || p == "s/a/b"
  isfile := fun p => p == "s/a/b/f"
  listdir := fun p => if p == "s" then ["a"] else if p == "s/a" then ["b"]
    else if p == "s/a/b" then ["f"] else []
  copy2Res := fun s _ => if s == "s/a/b/f" then some ⟨13, 5⟩ else none }

/-- Recognizes `progress` events. -/
def isProgressEv : Ev → Bool
  | .progress _ _ => true
  | _ => false

/-- Recognizes `error_cb` invocation events. -/
def isErrorCbEv : Ev → Bool
  | .errorCb _ => true
  | _ => false

/-- Recognizes the four AttributeStore operations
(`get_namespace`, `list`, `get`, `set`). -/
def isEAOpEv : Ev → Bool
  | .eaNamespacesCall => true
  | .eaListCall _ _ => true
  | .eaGetCall _ _ _ => true
  | .eaSetCall _ _ _ => true
  | _ => false

/-- Recognizes every event the attribute-propagation phase can emit. -/
def isAttrPhaseEv : Ev → Bool
  | .eaNamespacesCall => true
  | .eaListCall _ _ => true
  | .eaGetCall _ _ _ => true
  | .eaSetCall _ _ _ => true
  | .xattrErrCb _ _ _ _ => true
  | _ => false

/-- The `xattr` values that select attribute copying: exactly the identity
`True`, an exact `str`, or an exact `list` (lines 127-133). -/
def xattrSelected : PyXAttr → Bool
  | .pyTrue => true
  | .pyStr _ => true
  | .pyStrList _ => true
  | _ => false

/-- Claim C2: with `error_cb` supplied, a copy-layer OSError raised directly
while processing one entry of the current level is supposed to reach the
callback.  It does not: `call_error_cb(src, dst, why)` iterates over its
three scalar arguments, none of which is a tuple, list or `shutil.Error`,
so `error_cb` is invoked zero times and the failure vanishes.  Here the
single-file copy fails with `EACCES`, yet the run's trace holds no
`errorCb` event and the call returns normally. -/
theorem C2_direct_oserror_never_reaches_callback :
    env2.copy2Res "s" "d" = some ⟨13, 0⟩
    ∧ copytree env2 2 "s" "d" { error_cb := true } = ([Ev.copystatOk "s" "d"], .ok) :=
  ⟨rfl, rfl⟩

/-- Claim C3: a destination-directory creation failure other than `EEXIST`
is supposed to propagate as a fatal error blocking the subtree.  The
handler at lines 99-101 has no re-raise branch, so an `EACCES` (13) failure
is silently swallowed and the children are still processed: the trace shows
the failed `makedirs` followed by a successful child copy, and the call
returns `ok`. -/
theorem C3_makedirs_failure_swallowed :
    env3.makedirsRes "d" = some ⟨13, 7⟩
    ∧ copytree env3 2 "s" "d" {}
      = ([Ev.makedirsOSError "d" 13, Ev.copy2 "s/f" "d/f", Ev.copystatOk "s" "d"], .ok) :=
  ⟨rfl, rfl⟩

/-- Claim C4, counterexample: at the flag's default value (`symlinks=False`),
a symlink source does NOT produce a symlink in `dst`: the run content-copies
the target (one `copy2` event, no `symlinkMade` event).  The code's polarity
is the reverse of the claim's: `True` preserves the link, `False` follows it. -/
theorem C4_counterexample :
    env4.islink "s" = true
    ∧ copytree env4 2 "s" "d" {} = ([Ev.copy2 "s" "d", Ev.copystatOk "s" "d"], .ok) :=
  ⟨rfl, rfl⟩

/-- Claim C4, amended: with `symlinks=True` a symlink source is recreated as
a symlink with the same target string (no content copy); with the default
`symlinks=False` the target's content is copied instead (no symlink is
made). -/
theorem C4_amended_symlink_polarity (env : Env) (fuel : Nat) (src dst : String)
    (hl : env.islink src = true) (hf : env.isfile src = true)
    (hd : env.isdir src = false)
    (hsym : env.symlinkRes (env.readlink src) dst = none)
    (hcp : env.copy2Res src dst = none)
    (hst : env.copystatRes src dst = none) :
    copytree env (fuel + 1) src dst { symlinks := true }
      = ([Ev.symlinkMade (env.readlink src) dst, Ev.copystatOk src dst], .ok)
    ∧ copytree env (fuel + 1) src dst {}
      = ([Ev.copy2 src dst, Ev.copystatOk src dst], .ok) := by
  constructor
  · simp [copytree, copytreeRest, nameLoop, entryBody, excludeKeep, hl, hsym, hst]
  · simp [copytree, copytreeRest, nameLoop, entryBody, copyEAs, resolveNs, excludeKeep,
      hl, hf, hd, hcp, hst]

/-- Witness for the amended C4 at the concrete environment `env4`. -/
theorem C4_witness :
    copytree env4 2 "s" "d" { symlinks := true }
      = ([Ev.symlinkMade "tgt" "d", Ev.copystatOk "s" "d"], .ok) :=
  (C4_amended_symlink_polarity env4 1 "s" "d" rfl rfl rfl rfl rfl rfl).1

/-- Claim C5: when getting one specific attribute value fails, the
attribute-error callback is supposed to receive the attribute's name as its
third argument.  The code passes `None` at all three call sites (lines 142,
157, 167), so a `get` failure for attribute `a` reaches the callback with
third argument `none`, indistinguishable from a name-list enumeration
failure. -/
theorem C5_attr_error_callback_gets_none :
    env5.eaGetRes "s" 1 "a" false = .error ⟨13, 3⟩
    ∧ copytree env5 2 "s" "d"
        { xattr := .pyTrue, xattr_error_callback := some fun _ _ _ _ => true }
      = ([Ev.copy2 "s" "d", Ev.eaNamespacesCall, Ev.eaListCall "s" 1,
          Ev.eaGetCall "s" 1 "a", Ev.xattrErrCb "s" (some "user") none ⟨13, 3⟩,
          Ev.copystatOk "s" "d"], .ok) :=
  ⟨rfl, rfl⟩

/-- Claim C6: a failure of the final stat-copy is supposed to be appended to
the error list as one `(src, dst, cause)` record.  Line 194 uses
`errors.extend((src, dst, why))`, splicing the three components in as three
separate list elements, so the raised `shutil.Error` carries
`[src, dst, why]` instead of `[(src, dst, why)]`. -/
theorem C6_copystat_failure_spliced :
    env6.copystatRes "s" "d" = some ⟨1, 9⟩
    ∧ copytree env6 2 "s" "d" {}
      = ([Ev.copy2 "s" "d"],
         .shutilErr [.pstr "s", .pstr "d", .oserr ⟨1, 9⟩]) :=
  ⟨rfl, rfl⟩

/-- Claim C9, counterexample: a top-level `src` that is not a preserved
symlink, not a regular file and not a directory does not fall through to
the file-copy logic — `names` is never assigned, so line 105 raises
`UnboundLocalError` with an empty trace (no copy was ever attempted). -/
theorem C9_counterexample :
    baseEnv.islink "s" = false ∧ baseEnv.isfile "s" = false
    ∧ baseEnv.isdir "s" = false
    ∧ copytree baseEnv 2 "s" "d" {} = ([], .unboundLocalError) :=
  ⟨rfl, rfl, rfl, rfl⟩

/-- Claim C9, amended: for a top-level `src` matching none of the three
classification rules, the invocation aborts in the traversal setup itself
with an unbound-local error, before any entry processing, copy attempt or
callback activity. -/
theorem C9_amended_unclassifiable_aborts (env : Env) (fuel : Nat)
    (src dst : String) (o : Opts)
    (h1 : (o.symlinks && env.islink src) = false)
    (h2 : env.isfile src = false) (h3 : env.isdir src = false) :
    copytree env (fuel + 1) src dst o = ([], .unboundLocalError) := by
  simp [copytree, h1, h2, h3]

/-- Witness for the amended C9 at the concrete quiescent environment. -/
theorem C9_witness :
    copytree baseEnv 3 "x" "y" {} = ([], .unboundLocalError) :=
  C9_amended_unclassifiable_aborts baseEnv 2 "x" "y" {} rfl rfl rfl

mutual
/-- Every argument list `call_error_cb` delivers to `error_cb` from one
argument is flat: none of its elements is a tuple, list or `shutil.Error`. -/
theorem cecArg_flat : ∀ a : PyVal, ∀ l ∈ cecArg a, ∀ v ∈ l, isCont v = false
  | .pstr _ => by simp [cecArg]
  | .oserr _ => by simp [cecArg]
  | .shutilError lst => by simpa [cecArg] using cecArgs_flat lst
  | .ptuple elems => by
    intro l hl v hv
    rw [cecArg] at hl
    by_cases h : (elems.length == 3 && !(elems.any isCont)) = true
    · rw [if_pos h] at hl
      have hne : elems.any isCont = false := by
        rcases Bool.and_eq_true .. |>.mp h with ⟨-, h2⟩
        simpa using h2
      have hl' : l = elems := by simpa using hl
      subst hl'
      exact Bool.eq_false_iff.mpr (List.any_eq_false.mp hne v hv)
    · rw [if_neg h] at hl
      exact cecArgs_flat elems l hl v hv
  | .plist elems => by
    intro l hl v hv
    rw [cecArg] at hl
    by_cases h : (elems.length == 3 && !(elems.any isCont)) = true
    · rw [if_pos h] at hl
      have hne : elems.any isCont = false := by
        rcases Bool.and_eq_true .. |>.mp h with ⟨-, h2⟩
        simpa using h2
      have hl' : l = elems := by simpa using hl
      subst hl'
      exact Bool.eq_false_iff.mpr (List.any_eq_false.mp hne v hv)
    · rw [if_neg h] at hl
      exact cecArgs_flat elems l hl v hv

/-- Same flatness property for a whole argument sequence. -/
theorem cecArgs_flat : ∀ as : List PyVal, ∀ l ∈ cecArgs as, ∀ v ∈ l, isCont v = false
  | [] => by simp [cecArgs]
  | a :: rest => by
    intro l hl
    rw [cecArgs] at hl
    rcases List.mem_append.mp hl with h | h
    · exact cecArg_flat a l h
    · exact cecArgs_flat rest l h
end

/-- Claim C8: in callback mode, a single content-copy failure three
directories deep produces exactly one `errorCb` event, carrying the leaf
`(srcName, dstName, cause)` record with the aggregate wrappers of the three
intermediate levels flattened away; moreover no `error_cb` invocation ever
receives a tuple, list or `shutil.Error` among its arguments. -/
theorem C8_deep_failure_single_flat_callback :
    (copytree env8 5 "s" "t" { error_cb := true }).1.filter isErrorCbEv
      = [Ev.errorCb [.pstr "s/a/b/f", .pstr "t/a/b/f", .oserr ⟨13, 5⟩]]
    ∧ (copytree env8 5 "s" "t" { error_cb := true }).2 = .ok
    ∧ ∀ args : List PyVal, ∀ l ∈ cecArgs args, ∀ v ∈ l, isCont v = false :=
  ⟨rfl, rfl, cecArgs_flat⟩

/-- Witness for the quantified conjunct of C8 at a concrete nested argument. -/
theorem C8_witness : isCont (PyVal.pstr "x") = false :=
  C8_deep_failure_single_flat_callback.2.2
    [PyVal.shutilError [PyVal.ptuple [.pstr "x", .pstr "y", .oserr ⟨1, 0⟩]]]
    [PyVal.pstr "x", .pstr "y", .oserr ⟨1, 0⟩] (by decide)
    (PyVal.pstr "x") (by decide)

/-- Trace of a run of sibling regular files that all copy successfully
(per file: the optional progress call, then the content copy). -/
def goodTrace (o : Opts) (src dst : String) : List String → List Ev
  | [] => []
  | n :: r =>
    (if o.progress_callback then [Ev.progress (pjoin src n) (pjoin dst n)] else [])
      ++ Ev.copy2 (pjoin src n) (pjoin dst n) :: goodTrace o src dst r

theorem copy2_mem_goodTrace (o : Opts) (src dst : String) :
    ∀ ns, ∀ n ∈ ns, Ev.copy2 (pjoin src n) (pjoin dst n) ∈ goodTrace o src dst ns := by
  intro ns
  induction ns with
  | nil => simp
  | cons m r ih =>
    intro n hn
    rcases List.mem_cons.mp hn with h | h
    · subst h
      simp [goodTrace]
    · exact List.mem_append_right _ (List.mem_cons_of_mem _ (ih n h))

/-- The entry loop over sibling regular files that all copy successfully:
each produces its progress/copy events, no error is recorded. -/
theorem nameLoop_good_files (rec : String → String → List Ev × Outcome)
    (env : Env) (o : Opts) (src dst : String)
    (hsl : o.symlinks = false) (hx : resolveNs env o.xattr = none) :
    ∀ (ns : List String) (errs : List PyVal),
      (∀ n ∈ ns, env.isdir (pjoin src n) = false) →
      (∀ n ∈ ns, env.copy2Res (pjoin src n) (pjoin dst n) = none) →
      nameLoop rec env o true src dst ns errs = (goodTrace o src dst ns, Sum.inl errs) := by
  intro ns
  induction ns with
  | nil => intro errs _ _; rfl
  | cons n rest ih =>
    intro errs hnd hcp
    have hd := hnd n (List.mem_cons_self n rest)
    have hc := hcp n (List.mem_cons_self n rest)
    simp only [nameLoop, entryBody, hsl, Bool.false_and, Bool.false_eq_true, if_false,
      if_true, hd, hc, copyEAs, hx, goodTrace]
    rw [ih errs (fun m hm => hnd m (List.mem_cons_of_mem n hm))
      (fun m hm => hcp m (List.mem_cons_of_mem n hm))]
    simp

/-- The entry loop where exactly one sibling's content copy fails in
collecting mode: the failure is recorded as a single three-element tuple
and every other sibling is still copied. -/
theorem nameLoop_one_bad (rec : String → String → List Ev × Outcome)
    (env : Env) (o : Opts) (src dst : String)
    (hsl : o.symlinks = false) (hecb : o.error_cb = false)
    (hx : resolveNs env o.xattr = none) :
    ∀ (pre : List String) (post : List String) (bad : String) (e : OSErr),
      (∀ n ∈ pre ++ bad :: post, env.isdir (pjoin src n) = false) →
      (∀ n ∈ pre ++ post, env.copy2Res (pjoin src n) (pjoin dst n) = none) →
      env.copy2Res (pjoin src bad) (pjoin dst bad) = some e →
      nameLoop rec env o true src dst (pre ++ bad :: post) []
        = (goodTrace o src dst pre
            ++ (if o.progress_callback then
                  [Ev.progress (pjoin src bad) (pjoin dst bad)] else [])
            ++ goodTrace o src dst post,
           Sum.inl [.ptuple [.pstr (pjoin src bad), .pstr (pjoin dst bad), .oserr e]]) := by
  intro pre
  induction pre with
  | nil =>
    intro post bad e hnd hgood hbad
    simp only [List.nil_append, nameLoop, entryBody, hsl, Bool.false_and,
      Bool.false_eq_true, if_false, if_true,
      hnd bad (List.mem_cons_self bad post), hbad, hecb]
    rw [nameLoop_good_files rec env o src dst hsl hx post _
      (fun m hm => hnd m (List.mem_cons_of_mem bad hm)) hgood]
    simp [goodTrace]
  | cons n pre' ih =>
    intro post bad e hnd hgood hbad
    have hd := hnd n (List.mem_cons_self n _)
    have hc := hgood n (List.mem_cons_self n _)
    simp only [List.cons_append, nameLoop, entryBody, hsl, Bool.false_and,
      Bool.false_eq_true, if_false, if_true, hd, hc, copyEAs, hx, List.append_eq]
    rw [ih post bad e (fun m hm => hnd m (List.mem_cons_of_mem n hm))
      (fun m hm => hgood m (List.mem_cons_of_mem n hm)) hbad]
    simp [goodTrace]

/-- Claim C7: in collecting mode, when the content copy of exactly one
regular file among the siblings of a directory fails, every other sibling
is still copied (its `copy2` event is in the trace) and the invocation
raises one `shutil.Error` whose list holds exactly the one failure record. -/
theorem C7_error_isolation (env : Env) (o : Opts) (fuel : Nat) (src dst : String)
    (pre post : List String) (bad : String) (e : OSErr)
    (hsl : o.symlinks = false) (hecb : o.error_cb = false)
    (hx : resolveNs env o.xattr = none) (hex : o.exclude = none)
    (hif : env.isfile src = false) (hid : env.isdir src = true)
    (hls : env.listdir src = pre ++ bad :: post)
    (hnd : ∀ n ∈ pre ++ bad :: post, env.isdir (pjoin src n) = false)
    (hgood : ∀ n ∈ pre ++ post, env.copy2Res (pjoin src n) (pjoin dst n) = none)
    (hbad : env.copy2Res (pjoin src bad) (pjoin dst bad) = some e)
    (hst : env.copystatRes src dst = none) :
    (copytree env (fuel + 1) src dst o).2
      = .shutilErr [.ptuple [.pstr (pjoin src bad), .pstr (pjoin dst bad), .oserr e]]
    ∧ ∀ n ∈ pre ++ post,
        Ev.copy2 (pjoin src n) (pjoin dst n) ∈ (copytree env (fuel + 1) src dst o).1 := by
  have hfilter : (pre ++ bad :: post).filter (excludeKeep none) = pre ++ bad :: post :=
    List.filter_eq_self.mpr (fun a _ => rfl)
  have hloop := nameLoop_one_bad
    (fun s d => copytree env fuel s d (subOpts o)) env o src dst hsl hecb hx
    pre post bad e hnd hgood hbad
  refine ⟨?_, ?_⟩
  · cases hmk : env.makedirsRes dst <;>
      · simp only [copytree, copytreeRest, hsl, Bool.false_and, Bool.false_eq_true, if_false,
          if_true, hif, hid, hls, hex, hfilter, hloop, hst, hecb, hmk]
        simp
  · intro n hn
    cases hmk : env.makedirsRes dst <;>
      · simp only [copytree, copytreeRest, hsl, Bool.false_and, Bool.false_eq_true, if_false,
          if_true, hif, hid, hls, hex, hfilter, hloop, hst, hecb, hmk]
        rcases List.mem_append.mp hn with h | h
        · simp [List.mem_append, copy2_mem_goodTrace o src dst pre n h]
        · simp [List.mem_append, copy2_mem_goodTrace o src dst post n h]

/-- Witness for C7 at the concrete environment `env7` (siblings `a`, `b`,
`c`, of which only `b` fails). -/
theorem C7_witness :
    (copytree env7 2 "s" "d" {}).2
      = .shutilErr [.ptuple [.pstr "s/b", .pstr "d/b", .oserr ⟨13, 4⟩]] :=
  (C7_error_isolation env7 {} 1 "s" "d" ["a"] ["c"] "b" ⟨13, 4⟩
    rfl rfl rfl rfl rfl rfl rfl (by decide) (by decide) rfl rfl).1

theorem attrLoop_no_progress (env : Env) (o : Opts) (srcname dstname nsName : String)
    (nsId : Nat) :
    ∀ eas s d, Ev.progress s d ∉ (attrLoop env o srcname dstname nsName nsId eas).1 := by
  intro eas
  induction eas with
  | nil => simp [attrLoop]
  | cons ea rest ih =>
    intro s d
    simp only [attrLoop]
    repeat' split
    all_goals simp_all

theorem nsLoop_no_progress (env : Env) (o : Opts) (srcname dstname : String) :
    ∀ nss s d, Ev.progress s d ∉ (nsLoop env o srcname dstname nss).1 := by
  intro nss
  induction nss with
  | nil => simp [nsLoop]
  | cons p rest ih =>
    obtain ⟨nsName, nsId⟩ := p
    intro s d
    simp only [nsLoop]
    repeat' split
    all_goals simp_all [attrLoop_no_progress]

theorem copyEAs_no_progress (env : Env) (o : Opts) (srcname dstname s d : String) :
    Ev.progress s d ∉ (copyEAs env o srcname dstname).1 := by
  simp only [copyEAs]
  split
  · simp
  · simp [nsLoop_no_progress]

theorem entryBody_no_progress (rec : String → String → List Ev × Outcome)
    (env : Env) (o : Opts)
    (hrec : ∀ s' d' s d, Ev.progress s d ∉ (rec s' d').1)
    (hpc : o.progress_callback = false) :
    ∀ srcname dstname s d, Ev.progress s d ∉ (entryBody rec env o srcname dstname).1 := by
  intro srcname dstname s d
  simp only [entryBody, hpc, Bool.false_eq_true, if_false]
  repeat' split
  all_goals simp_all [copyEAs_no_progress, hrec]

theorem nameLoop_no_progress (rec : String → String → List Ev × Outcome)
    (env : Env) (o : Opts) (directory : Bool) (src dst : String)
    (hrec : ∀ s' d' s d, Ev.progress s d ∉ (rec s' d').1)
    (hpc : o.progress_callback = false) :
    ∀ ns errs s d,
      Ev.progress s d ∉ (nameLoop rec env o directory src dst ns errs).1 := by
  intro ns
  induction ns with
  | nil => simp [nameLoop]
  | cons n rest ih =>
    intro errs s d
    simp only [nameLoop]
    repeat' split
    all_goals
      simp_all [entryBody_no_progress rec env o hrec hpc, List.mem_append, List.mem_map]

theorem copytreeRest_no_progress (rec : String → String → List Ev × Outcome)
    (env : Env) (o : Opts) (src dst : String) (names0 : List String)
    (directory : Bool) (t0 : List Ev)
    (hrec : ∀ s' d' s d, Ev.progress s d ∉ (rec s' d').1)
    (hpc : o.progress_callback = false)
    (ht0 : ∀ s d, Ev.progress s d ∉ t0) :
    ∀ s d, Ev.progress s d ∉ (copytreeRest rec env o src dst names0 directory t0).1 := by
  intro s d
  simp only [copytreeRest]
  repeat' split
  all_goals
    simp_all [nameLoop_no_progress rec env o directory src dst hrec hpc,
      List.mem_append, List.mem_map]

theorem copytree_no_progress :
    ∀ (fuel : Nat) (env : Env) (src dst : String) (o : Opts),
      o.progress_callback = false →
      ∀ s d, Ev.progress s d ∉ (copytree env fuel src dst o).1 := by
  intro fuel
  induction fuel with
  | zero => intro env src dst o hpc s d; simp [copytree]
  | succ fuel ih =>
    intro env src dst o hpc s d
    have hrec : ∀ s' d' s d,
        Ev.progress s d ∉ (copytree env fuel s' d' (subOpts o)).1 :=
      fun s' d' s d => ih env s' d' (subOpts o) rfl s d
    simp only [copytree]
    split
    · exact copytreeRest_no_progress _ env o src dst _ _ _ hrec hpc (by simp) s d
    · split
      · exact copytreeRest_no_progress _ env o src dst _ _ _ hrec hpc (by simp) s d
      · split
        · exact copytreeRest_no_progress _ env o src dst _ _ _ hrec hpc
            (by split <;> simp) s d
        · simp

theorem entryBody_progress_src (rec : String → String → List Ev × Outcome)
    (env : Env) (o : Opts)
    (hrec : ∀ s' d' s d, Ev.progress s d ∉ (rec s' d').1) :
    ∀ srcname dstname s d,
      Ev.progress s d ∈ (entryBody rec env o srcname dstname).1 →
        s = srcname ∧ d = dstname := by
  intro srcname dstname s d h
  simp only [entryBody] at h
  repeat' split at h
  all_goals simp_all [copyEAs_no_progress, hrec, List.mem_append]

theorem nameLoop_progress_src (rec : String → String → List Ev × Outcome)
    (env : Env) (o : Opts) (directory : Bool) (src dst : String)
    (hrec : ∀ s' d' s d, Ev.progress s d ∉ (rec s' d').1) :
    ∀ ns errs s d,
      Ev.progress s d ∈ (nameLoop rec env o directory src dst ns errs).1 →
        ∃ n, n ∈ ns ∧ s = (if directory then pjoin src n else n)
          ∧ d = (if directory then pjoin dst n else dst) := by
  intro ns
  induction ns with
  | nil => intro errs s d h; simp [nameLoop] at h
  | cons n rest ih =>
    intro errs s d h
    rcases hr : (entryBody rec env o (if directory then pjoin src n else n)
        (if directory then pjoin dst n else dst)).2 with _ | e | lst | out
    · simp [nameLoop, hr] at h
      rcases h with h | h
      · obtain ⟨hs, hd⟩ := entryBody_progress_src rec env o hrec _ _ _ _ h
        exact ⟨n, List.mem_cons_self n rest, hs, hd⟩
      · obtain ⟨m, hm, h1, h2⟩ := ih errs s d h
        exact ⟨m, List.mem_cons_of_mem n hm, h1, h2⟩
    · by_cases hcb : o.error_cb = true
      · simp [nameLoop, hr, hcb] at h
        rcases h with h | h
        · obtain ⟨hs, hd⟩ := entryBody_progress_src rec env o hrec _ _ _ _ h
          exact ⟨n, List.mem_cons_self n rest, hs, hd⟩
        · obtain ⟨m, hm, h1, h2⟩ := ih errs s d h
          exact ⟨m, List.mem_cons_of_mem n hm, h1, h2⟩
      · simp [nameLoop, hr, hcb] at h
        rcases h with h | h
        · obtain ⟨hs, hd⟩ := entryBody_progress_src rec env o hrec _ _ _ _ h
          exact ⟨n, List.mem_cons_self n rest, hs, hd⟩
        · obtain ⟨m, hm, h1, h2⟩ := ih _ s d h
          exact ⟨m, List.mem_cons_of_mem n hm, h1, h2⟩
    · by_cases hcb : o.error_cb = true
      · simp [nameLoop, hr, hcb] at h
        rcases h with h | h
        · obtain ⟨hs, hd⟩ := entryBody_progress_src rec env o hrec _ _ _ _ h
          exact ⟨n, List.mem_cons_self n rest, hs, hd⟩
        · obtain ⟨m, hm, h1, h2⟩ := ih errs s d h
          exact ⟨m, List.mem_cons_of_mem n hm, h1, h2⟩
      · simp [nameLoop, hr, hcb] at h
        rcases h with h | h
        · obtain ⟨hs, hd⟩ := entryBody_progress_src rec env o hrec _ _ _ _ h
          exact ⟨n, List.mem_cons_self n rest, hs, hd⟩
        · obtain ⟨m, hm, h1, h2⟩ := ih _ s d h
          exact ⟨m, List.mem_cons_of_mem n hm, h1, h2⟩
    · simp [nameLoop, hr] at h
      obtain ⟨hs, hd⟩ := entryBody_progress_src rec env o hrec _ _ _ _ h
      exact ⟨n, List.mem_cons_self n rest, hs, hd⟩

theorem copytreeRest_progress_src (rec : String → String → List Ev × Outcome)
    (env : Env) (o : Opts) (src dst : String) (names0 : List String)
    (directory : Bool) (t0 : List Ev)
    (hrec : ∀ s' d' s d, Ev.progress s d ∉ (rec s' d').1)
    (ht0 : ∀ s d, Ev.progress s d ∉ t0) :
    ∀ s d, Ev.progress s d ∈ (copytreeRest rec env o src dst names0 directory t0).1 →
      ∃ n, n ∈ names0 ∧ s = (if directory then pjoin src n else n)
        ∧ d = (if directory then pjoin dst n else dst) := by
  intro s d h
  simp only [copytreeRest] at h
  repeat' split at h
  all_goals
    simp [List.mem_append, List.mem_map, ht0 s d] at h
    obtain ⟨n, hn, h1, h2⟩ :=
      nameLoop_progress_src rec env o directory src dst hrec _ _ s d h
    exact ⟨n, (List.mem_filter.mp hn).1, h1, h2⟩

/-- Claim C1, counterexample: with `progress_callback` supplied at the top
level, the nested file `s/d/f` is copied by the recursive call but no
progress notification is emitted for it, because the recursive call
`copytree(srcname, dstname, symlinks)` (line 120) passes only the
`symlinks` flag and leaves every other option at its default. -/
theorem C1_counterexample :
    Ev.copy2 "s/d/f" "t/d/f"
      ∈ (copytree env1 5 "s" "t" { progress_callback := true }).1
    ∧ Ev.progress "s/d/f" "t/d/f"
      ∉ (copytree env1 5 "s" "t" { progress_callback := true }).1 := by
  decide

/-- Claim C1, amended: the recursive call for a directory child re-threads
only the `symlinks` flag, so the recursion runs with every other option at
its default.  Consequently progress notifications can only concern the
top-level invocation's own entries: every `progress` event in a run names
either `src` itself or an immediate child of `src`. -/
theorem C1_amended_progress_only_top_level (env : Env) (fuel : Nat)
    (src dst : String) (o : Opts) (s d : String)
    (h : Ev.progress s d ∈ (copytree env fuel src dst o).1) :
    (s = src ∧ d = dst)
    ∨ ∃ n, n ∈ env.listdir src ∧ s = pjoin src n ∧ d = pjoin dst n := by
  cases fuel with
  | zero => simp [copytree] at h
  | succ fuel =>
    have hrec : ∀ s' d' s d,
        Ev.progress s d ∉ (copytree env fuel s' d' (subOpts o)).1 :=
      fun s' d' s d => copytree_no_progress fuel env s' d' (subOpts o) rfl s d
    simp only [copytree] at h
    split at h
    · obtain ⟨n, hn, h1, h2⟩ := copytreeRest_progress_src _ env o src dst [src]
        false [] hrec (by simp) s d h
      left
      simp only [List.mem_singleton] at hn
      subst hn
      simp only [if_false, Bool.false_eq_true] at h1 h2
      exact ⟨h1, h2⟩
    · split at h
      · obtain ⟨n, hn, h1, h2⟩ := copytreeRest_progress_src _ env o src dst [src]
          false [] hrec (by simp) s d h
        left
        simp only [List.mem_singleton] at hn
        subst hn
        simp only [if_false, Bool.false_eq_true] at h1 h2
        exact ⟨h1, h2⟩
      · split at h
        · obtain ⟨n, hn, h1, h2⟩ := copytreeRest_progress_src _ env o src dst
            (env.listdir src) true _ hrec (by split <;> simp) s d h
          right
          simp only [if_true] at h1 h2
          exact ⟨n, hn, h1, h2⟩
        · simp at h

/-- Witness for the amended C1: the top-level file child `g` of `env1`
does receive a progress notification, and it is classified as an immediate
child of `src`. -/
theorem C1_witness :
    ("s/g" = "s" ∧ "t/g" = "t")
    ∨ ∃ n, n ∈ env1.listdir "s" ∧ "s/g" = pjoin "s" n ∧ "t/g" = pjoin "t" n :=
  C1_amended_progress_only_top_level env1 5 "s" "t" { progress_callback := true }
    "s/g" "t/g" (by decide)

theorem resolveNs_unselected (env : Env) :
    ∀ x : PyXAttr, xattrSelected x = false → resolveNs env x = none := by
  intro x hx
  cases x <;> simp_all [xattrSelected, resolveNs]

theorem copyEAs_unselected (env : Env) (o : Opts)
    (hx : xattrSelected o.xattr = false) :
    ∀ srcname dstname, copyEAs env o srcname dstname = ([], none) := by
  intro srcname dstname
  simp [copyEAs, resolveNs_unselected env o.xattr hx]

theorem subOpts_clearx (o : Opts) :
    subOpts { o with xattr := PyXAttr.pyFalse } = subOpts o := rfl

theorem entryBody_clearx (rec : String → String → List Ev × Outcome)
    (env : Env) (o : Opts) (hx : xattrSelected o.xattr = false) :
    ∀ srcname dstname, entryBody rec env o srcname dstname
      = entryBody rec env { o with xattr := PyXAttr.pyFalse } srcname dstname := by
  intro srcname dstname
  simp only [entryBody, copyEAs_unselected env o hx,
    copyEAs_unselected env { o with xattr := PyXAttr.pyFalse } rfl]

theorem nameLoop_clearx (rec : String → String → List Ev × Outcome)
    (env : Env) (o : Opts) (hx : xattrSelected o.xattr = false)
    (directory : Bool) (src dst : String) :
    ∀ ns errs, nameLoop rec env o directory src dst ns errs
      = nameLoop rec env { o with xattr := PyXAttr.pyFalse } directory src dst ns errs := by
  intro ns
  induction ns with
  | nil => intro errs; rfl
  | cons n rest ih =>
    intro errs
    simp only [nameLoop, ← entryBody_clearx rec env o hx, ih]

theorem copytreeRest_clearx (rec : String → String → List Ev × Outcome)
    (env : Env) (o : Opts) (hx : xattrSelected o.xattr = false)
    (src dst : String) (names0 : List String) (directory : Bool) (t0 : List Ev) :
    copytreeRest rec env o src dst names0 directory t0
      = copytreeRest rec env { o with xattr := PyXAttr.pyFalse }
          src dst names0 directory t0 := by
  simp only [copytreeRest, ← nameLoop_clearx rec env o hx directory src dst]

theorem copytree_clearx :
    ∀ (fuel : Nat) (env : Env) (src dst : String) (o : Opts),
      xattrSelected o.xattr = false →
      copytree env fuel src dst o
        = copytree env fuel src dst { o with xattr := PyXAttr.pyFalse } := by
  intro fuel env src dst o hx
  cases fuel with
  | zero => rfl
  | succ fuel =>
    simp only [copytree, subOpts_clearx]
    split
    · exact copytreeRest_clearx _ env o hx src dst _ _ _
    · split
      · exact copytreeRest_clearx _ env o hx src dst _ _ _
      · split
        · exact copytreeRest_clearx _ env o hx src dst _ _ _
        · rfl

theorem entryBody_noEA (rec : String → String → List Ev × Outcome)
    (env : Env) (o : Opts)
    (hrec : ∀ s' d' e, e ∈ (rec s' d').1 → isEAOpEv e = false)
    (hx : xattrSelected o.xattr = false) :
    ∀ srcname dstname e, e ∈ (entryBody rec env o srcname dstname).1 →
      isEAOpEv e = false := by
  intro srcname dstname e he
  simp only [entryBody, copyEAs_unselected env o hx] at he
  repeat' split at he
  all_goals
    first
    | exact hrec _ _ e he
    | (simp only [List.mem_append, List.mem_cons, List.mem_singleton,
         List.not_mem_nil, or_false, false_or] at he
       repeat' (rcases he with he | he)
       all_goals rfl)

theorem nameLoop_noEA (rec : String → String → List Ev × Outcome)
    (env : Env) (o : Opts) (directory : Bool) (src dst : String)
    (hrec : ∀ s' d' e, e ∈ (rec s' d').1 → isEAOpEv e = false)
    (hx : xattrSelected o.xattr = false) :
    ∀ ns errs e, e ∈ (nameLoop rec env o directory src dst ns errs).1 →
      isEAOpEv e = false := by
  intro ns
  induction ns with
  | nil => intro errs e he; simp [nameLoop] at he
  | cons n rest ih =>
    intro errs e he
    rcases hr : (entryBody rec env o (if directory then pjoin src n else n)
        (if directory then pjoin dst n else dst)).2 with _ | e2 | lst | out
    · simp [nameLoop, hr] at he
      rcases he with he | he
      · exact entryBody_noEA rec env o hrec hx _ _ e he
      · exact ih errs e he
    · by_cases hcb : o.error_cb = true
      · simp [nameLoop, hr, hcb] at he
        rcases he with he | ⟨a, ha, heq⟩ | he
        · exact entryBody_noEA rec env o hrec hx _ _ e he
        · subst heq; rfl
        · exact ih errs e he
      · simp [nameLoop, hr, hcb] at he
        rcases he with he | he
        · exact entryBody_noEA rec env o hrec hx _ _ e he
        · exact ih _ e he
    · by_cases hcb : o.error_cb = true
      · simp [nameLoop, hr, hcb] at he
        rcases he with he | ⟨a, ha, heq⟩ | he
        · exact entryBody_noEA rec env o hrec hx _ _ e he
        · subst heq; rfl
        · exact ih errs e he
      · simp [nameLoop, hr, hcb] at he
        rcases he with he | he
        · exact entryBody_noEA rec env o hrec hx _ _ e he
        · exact ih _ e he
    · simp [nameLoop, hr] at he
      exact entryBody_noEA rec env o hrec hx _ _ e he

theorem copytreeRest_noEA (rec : String → String → List Ev × Outcome)
    (env : Env) (o : Opts) (src dst : String) (names0 : List String)
    (directory : Bool) (t0 : List Ev)
    (hrec : ∀ s' d' e, e ∈ (rec s' d').1 → isEAOpEv e = false)
    (hx : xattrSelected o.xattr = false)
    (ht0 : ∀ e ∈ t0, isEAOpEv e = false) :
    ∀ e ∈ (copytreeRest rec env o src dst names0 directory t0).1,
      isEAOpEv e = false := by
  intro e he
  rcases hr : (nameLoop rec env o directory src dst
      (names0.filter (excludeKeep o.exclude)) []).2 with errs | out
  · rcases hst : env.copystatRes src dst with _ | why
    · simp [copytreeRest, hr, hst, apply_ite, ite_self] at he
      rcases he with he | he | he
      · exact ht0 e he
      · exact nameLoop_noEA rec env o directory src dst hrec hx _ _ e he
      · subst he; rfl
    · by_cases hcb : o.error_cb = true
      · simp [copytreeRest, hr, hst, hcb] at he
        rcases he with he | he | ⟨a, ha, heq⟩
        · exact ht0 e he
        · exact nameLoop_noEA rec env o directory src dst hrec hx _ _ e he
        · subst heq; rfl
      · simp [copytreeRest, hr, hst, hcb, apply_ite, ite_self] at he
        rcases he with he | he
        · exact ht0 e he
        · exact nameLoop_noEA rec env o directory src dst hrec hx _ _ e he
  · simp [copytreeRest, hr] at he
    rcases he with he | he
    · exact ht0 e he
    · exact nameLoop_noEA rec env o directory src dst hrec hx _ _ e he

theorem copytree_noEA :
    ∀ (fuel : Nat) (env : Env) (src dst : String) (o : Opts),
      xattrSelected o.xattr = false →
      ∀ e ∈ (copytree env fuel src dst o).1, isEAOpEv e = false := by
  intro fuel
  induction fuel with
  | zero => intro env src dst o hx e he; simp [copytree] at he
  | succ fuel ih =>
    intro env src dst o hx e he
    have hrec : ∀ s' d' e, e ∈ (copytree env fuel s' d' (subOpts o)).1 →
        isEAOpEv e = false :=
      fun s' d' e he => ih env s' d' (subOpts o) rfl e he
    simp only [copytree] at he
    split at he
    · exact copytreeRest_noEA _ env o src dst _ _ _ hrec hx (by simp) e he
    · split at he
      · exact copytreeRest_noEA _ env o src dst _ _ _ hrec hx (by simp) e he
      · split at he
        · exact copytreeRest_noEA _ env o src dst _ _ _ hrec hx
            (by intro ev hev; split at hev <;> simp_all [isEAOpEv]) e he
        · simp at he

/-- Claim C10: when the `xattr` argument is neither the exact boolean `True`
nor an exact `str` or `list` (for example the truthy integer `1`), no
AttributeStore operation is ever performed anywhere in the run, and the
whole run behaves exactly as if `xattr` were `False`. -/
theorem C10_truthy_nonselecting_xattr (env : Env) (fuel : Nat)
    (src dst : String) (o : Opts) (hx : xattrSelected o.xattr = false) :
    (∀ e ∈ (copytree env fuel src dst o).1, isEAOpEv e = false)
    ∧ copytree env fuel src dst o
      = copytree env fuel src dst { o with xattr := PyXAttr.pyFalse } :=
  ⟨copytree_noEA fuel env src dst o hx, copytree_clearx fuel env src dst o hx⟩

/-- Witness for C10: in `env5` (a file that does carry extended attributes),
passing `xattr = 1` performs the content copy yet behaves exactly as
`xattr = False`. -/
theorem C10_witness :
    isEAOpEv (Ev.copy2 "s" "d") = false
    ∧ copytree env5 2 "s" "d" { xattr := PyXAttr.pyInt 1 }
      = copytree env5 2 "s" "d" { xattr := PyXAttr.pyFalse } :=
  ⟨(C10_truthy_nonselecting_xattr env5 2 "s" "d" { xattr := PyXAttr.pyInt 1 } rfl).1
      (Ev.copy2 "s" "d") (by decide),
   (C10_truthy_nonselecting_xattr env5 2 "s" "d" { xattr := PyXAttr.pyInt 1 } rfl).2⟩

end PyBsdCopy
